import Mathlib

/-!
A verification development for the odds-ingestion pipeline in
`src/Python/ingest_odds_from_api.py`.

Modelling conventions (shallow embedding):

* A raw timestamp string coming from the API is modelled by `RawTime`:
  either a parseable instant (`RawTime.valid t`, with `t : Int` the UTC
  instant) or an unparseable string (`RawTime.invalid`).  The pandas call
  `pd.to_datetime(..., errors="coerce")` is modelled by `parseTime`,
  which sends `invalid` to `none` (NaT) and `valid t` to `some t`.
* A JSON field that is absent is modelled by `none` (the API emits a
  value whenever a key is present, so absent-key and null coincide).
* CSV persistence is modelled as preserving the logical field values of
  each row: the store file is `Option (List OddsRow)` (`none` = the file
  does not exist).
* `astype(str)` on the key columns is NOT symmetric between the two
  frames compared by the dedup step, and the model keeps that asymmetry.
  The existing frame comes from `pd.read_csv`, where an empty cell is
  `NaN` and stringifies to `nan`; the incoming frame holds in-memory
  Python `None`, which stringifies to `None` (a null `outcome_name` cell
  sits in an object-dtype column, and an all-null `line_point` column —
  e.g. any h2h-only batch — stays object-dtype too).  Hence
  `diskKeyFields` renders nulls as `nan` and `memKeyFields` as `None`.
  (A batch mixing floats and nulls in `line_point` would be float64 and
  render its nulls as `nan`; the theorems below either exclude null key
  fields or use all-null-column batches, where the row-level `None`
  rendering agrees with pandas.)  Only `market_last_update` is
  symmetric: both sides pass through `pd.to_datetime`, so a missing
  value is `NaT` on both.
* Integers render through `natStr`/`intStr`, the canonical decimal
  rendering that `str` produces.  A line-point rational renders as
  `num/den`, abstracting the decimal `str(float)` form while keeping
  its essential properties (injective, contains a non-digit separator,
  never the literal `nan`/`None`/`NaT`).
* `pd.DataFrame(list_of_dicts)` yields a frame whose columns are the
  dict keys when the list is non-empty and no columns at all when it is
  empty; `OddsFrame` records the column list so that the column
  selection `odds_df[cols_to_write]` (a KeyError when a column is
  missing) can be modelled faithfully.
-/

namespace Ingest

/-- A raw timestamp as received from the API or read back from CSV:
either a parseable instant or garbage. -/
inductive RawTime where
  | valid (t : Int) : RawTime
  | invalid : RawTime
deriving DecidableEq

/-- Model of `pd.to_datetime(x, utc=True, errors="coerce")` on one value. -/
def parseTime : RawTime → Option Int
  | RawTime.valid t => some t
  | RawTime.invalid => none

/-- One entry of a market's `outcomes` list. -/
structure Outcome where
  name : Option String
  price : Option Int
  point : Option ℚ
deriving DecidableEq

/-- One entry of a bookmaker's `markets` list. -/
structure Market where
  key : String
  last_update : Option RawTime
  outcomes : List Outcome
deriving DecidableEq

/-- One entry of an event's `bookmakers` list. -/
structure Bookmaker where
  key : String
  title : Option String
  last_update : Option RawTime
  markets : List Market
deriving DecidableEq

/-- One event object of the fetched JSON list. -/
structure Event where
  id : String
  sport_key : String
  sport_title : Option String
  commence_time : Option RawTime
  home_team : Option String
  away_team : Option String
  bookmakers : List Bookmaker
deriving DecidableEq

/-- One fact row of the odds time series (post `pd.to_datetime`
normalisation of the three timestamp columns). -/
structure OddsRow where
  event_id : String
  bookmaker_key : String
  market_key : String
  outcome_name : Option String
  is_home_team : Option Bool
  price_american : Option Int
  line_point : Option ℚ
  event_commence_utc : Option Int
  market_last_update : Option Int
  snapshot_utc : Int
deriving DecidableEq

/-- One row of the events dimension table. -/
structure EventRow where
  event_id : String
  sport_key : String
  sport_title : Option String
  commence_time_utc : Option Int
  home_team : Option String
  away_team : Option String
deriving DecidableEq

/-- One row of the bookmakers dimension table. -/
structure BookmakerRow where
  bookmaker_key : String
  bookmaker_title : Option String
deriving DecidableEq

/-- The `UNIQUE_COLS` constant: the composite-key columns, in order. -/
def UNIQUE_COLS : List String :=
  ["event_id", "bookmaker_key", "market_key", "outcome_name",
   "line_point", "market_last_update"]

/-- The `cols_to_write` list of `append_odds_snapshot`, in order. -/
def cols_to_write : List String :=
  ["event_id", "bookmaker_key", "market_key", "outcome_name",
   "is_home_team", "price_american", "line_point",
   "event_commence_utc", "market_last_update", "snapshot_utc"]

/-- The columns of the odds DataFrame built by `flatten_odds` from a
non-empty row list: the dict keys, in insertion order. -/
def odds_columns : List String := cols_to_write

/-- The composite key tuple of a fact row (the `UNIQUE_COLS` fields). -/
structure KeyTuple where
  event_id : String
  bookmaker_key : String
  market_key : String
  outcome_name : Option String
  line_point : Option ℚ
  market_last_update : Option Int
deriving DecidableEq

/-- The decimal digit character for `d < 10`. -/
def digitChar (d : Nat) : Char := Char.ofNat (48 + d)

/-- Fuel-driven decimal printer for naturals (most significant digit
first); `fuel ≥ n + 1` is always enough. -/
def natStrAux : Nat → Nat → List Char
  | 0, _ => []
  | fuel + 1, n =>
    if n < 10 then [digitChar n]
    else natStrAux fuel (n / 10) ++ [digitChar (n % 10)]

/-- The canonical decimal rendering of a natural, as `str` produces. -/
def natStr (n : Nat) : String := ⟨natStrAux (n + 1) n⟩

/-- Parse a digit string back to its value (retraction of `natStr`). -/
def natVal (cs : List Char) : Nat :=
  cs.foldl (fun acc c => 10 * acc + (c.toNat - 48)) 0

/-- The canonical decimal rendering of an integer, as `str` produces. -/
def intStr : Int → String
  | Int.ofNat m => natStr m
  | Int.negSucc m => "-" ++ natStr (m + 1)

/-- Rendering of a line-point value.  The model carries the quote as a
rational and renders it `num/den`; this abstracts the decimal
`str(float)` rendering, keeping its essential properties: injective,
containing a non-digit separator, never equal to `nan`, `None` or
`NaT`. -/
def ratStr (q : ℚ) : String := intStr q.num ++ "/" ++ natStr q.den

/-- `str` applied to a nullable string cell; the rendering of the null
differs between the in-memory batch (`None`) and the CSV-read store
(`nan`), so the null literal is a parameter. -/
def strOfOptStrWith (nullStr : String) : Option String → String
  | none => nullStr
  | some s => s

/-- `str` applied to a nullable line-point cell, with the null literal
as a parameter (same in-memory/CSV asymmetry as for strings). -/
def strOfOptRatWith (nullStr : String) : Option ℚ → String
  | none => nullStr
  | some q => ratStr q

/-- `str` applied to a nullable timestamp cell.  Both the in-memory
batch and the CSV-read store pass this column through `pd.to_datetime`,
so a missing value renders as `NaT` on both sides. -/
def strOfOptTime : Option Int → String
  | none => "NaT"
  | some t => intStr t

/-- Model of Python's `"|".join(strings)`. -/
def joinPipe : List String → String
  | [] => ""
  | [s] => s
  | s :: rest => s ++ "|" ++ joinPipe rest

/-- The six stringified key fields of a key tuple, in `UNIQUE_COLS`
order (the `.astype(str)` step of `append_odds_snapshot`), with the
null literal of the two nullable non-timestamp fields as a parameter. -/
def keyFieldsWith (nullStr : String) (k : KeyTuple) : List String :=
  [k.event_id, k.bookmaker_key, k.market_key,
   strOfOptStrWith nullStr k.outcome_name,
   strOfOptRatWith nullStr k.line_point,
   strOfOptTime k.market_last_update]

/-- The stringified key fields of a row read back from the CSV store:
an empty cell reads as `NaN` and `astype(str)` renders it `nan`. -/
def diskKeyFields (k : KeyTuple) : List String := keyFieldsWith "nan" k

/-- The stringified key fields of an in-memory batch row: a missing
value is the Python `None` and `astype(str)` renders it `None` (the
object-dtype case, which is how an all-null column — e.g. `line_point`
of an h2h batch — and any null `outcome_name` cell stringify). -/
def memKeyFields (k : KeyTuple) : List String := keyFieldsWith "None" k

/-- The serialized composite key of a CSV-read store row. -/
def serializeKeyDisk (k : KeyTuple) : String := joinPipe (diskKeyFields k)

/-- The serialized composite key of an in-memory batch row. -/
def serializeKeyMem (k : KeyTuple) : String := joinPipe (memKeyFields k)

/-- Project a fact row onto its composite key tuple. -/
def rowKey (r : OddsRow) : KeyTuple :=
  ⟨r.event_id, r.bookmaker_key, r.market_key, r.outcome_name,
   r.line_point, r.market_last_update⟩

/-- The serialized composite key of a fact row as the in-memory
(incoming) side computes it. -/
def memRowKey (r : OddsRow) : String := serializeKeyMem (rowKey r)

/-- The serialized composite key of a fact row as the CSV-read
(existing-store) side computes it. -/
def diskRowKey (r : OddsRow) : String := serializeKeyDisk (rowKey r)

/-- Python truthiness of a nullable string (`None` and `""` are falsy). -/
def truthyStr : Option String → Bool
  | none => false
  | some s => !(s == "")

/-- The `is_home_team` derivation of `flatten_odds`:
`if outcome_name and home_team: ...` with string comparisons against the
home and away team names. -/
def derive_is_home (name home away : Option String) : Option Bool :=
  if truthyStr name && truthyStr home then
    if name == home then some true
    else if name == away then some false
    else none
  else none

/-- The fact row built by `flatten_odds` for one outcome of one market
of one bookmaker of one event (timestamp columns already normalised by
the trailing `pd.to_datetime` pass). -/
def mkOddsRow (now : Int) (e : Event) (b : Bookmaker) (m : Market)
    (o : Outcome) : OddsRow :=
  { event_id := e.id
    bookmaker_key := b.key
    market_key := m.key
    outcome_name := o.name
    is_home_team := derive_is_home o.name e.home_team e.away_team
    price_american := o.price
    line_point := o.point
    event_commence_utc := e.commence_time.bind parseTime
    market_last_update :=
      (match m.last_update with
       | some r => some r
       | none => b.last_update).bind parseTime
    snapshot_utc := now }

/-- Insert-or-overwrite into an association-style list keyed by `key`,
keeping the first-insertion position (Python dict assignment). -/
def upsertBy (key : α → String) (x : α) : List α → List α
  | [] => [x]
  | y :: ys => if key y == key x then x :: ys else y :: upsertBy key x ys

/-- The events dimension row recorded for one event. -/
def mkEventRow (e : Event) : EventRow :=
  { event_id := e.id
    sport_key := e.sport_key
    sport_title := e.sport_title
    commence_time_utc := e.commence_time.bind parseTime
    home_team := e.home_team
    away_team := e.away_team }

/-- The odds DataFrame produced by `flatten_odds`: the row list plus its
column list (no columns at all when the row list is empty, as for
`pd.DataFrame([])`). -/
structure OddsFrame where
  columns : List String
  rows : List OddsRow
deriving DecidableEq

/-- The three outputs of `flatten_odds`. -/
structure FlattenResult where
  events : List EventRow
  bookmakers : List BookmakerRow
  odds : OddsFrame
deriving DecidableEq

/-- The flat fact-row list of `flatten_odds`: one row per outcome, in
event / bookmaker / market / outcome iteration order. -/
def flattenRows (now : Int) (json_data : List Event) : List OddsRow :=
  json_data.flatMap fun e =>
    e.bookmakers.flatMap fun b =>
      b.markets.flatMap fun m =>
        m.outcomes.map fun o => mkOddsRow now e b m o

/-- Model of `flatten_odds`: the two dimension tables (dict semantics:
insert-or-overwrite keyed by id) and the odds fact frame. -/
def flatten_odds (now : Int) (json_data : List Event) : FlattenResult :=
  let odds_rows := flattenRows now json_data
  { events := json_data.foldl (fun acc e => upsertBy EventRow.event_id (mkEventRow e) acc) []
    bookmakers := json_data.foldl (fun acc e =>
      e.bookmakers.foldl (fun acc2 b =>
        upsertBy BookmakerRow.bookmaker_key ⟨b.key, b.title⟩ acc2) acc) []
    odds := { columns := if odds_rows.isEmpty then [] else odds_columns
              rows := odds_rows } }

/-- The column-selection guard of `append_odds_snapshot`: does the frame
have every column of `cols_to_write`?  (`odds_df[cols_to_write]` raises
a KeyError otherwise.) -/
def checkCols (frame : OddsFrame) : Bool :=
  cols_to_write.all fun c => frame.columns.contains c

/-- The serialized keys of the rows already on disk (computed from the
CSV-read frame, so nulls render `nan`). -/
def existingKeyStrings (rows : List OddsRow) : List String :=
  rows.map diskRowKey

/-- The membership test of the dedup filter: a row is new when its
in-memory serialized key is not among the existing disk keys.  The two
sides render a null `outcome_name` or `line_point` differently (`None`
vs `nan`), which is exactly the program's behaviour. -/
def isNewRow (existingKeys : List String) (r : OddsRow) : Bool :=
  !(existingKeys.contains (memRowKey r))

/-- Model of `append_odds_snapshot`: select the output columns (KeyError
when one is missing), write the whole batch when no store file exists,
otherwise append exactly the rows whose serialized composite key is not
already present (no write at all when none are). -/
def append_odds_snapshot (frame : OddsFrame)
    (store : Option (List OddsRow)) : Except String (Option (List OddsRow)) :=
  if checkCols frame then
    match store with
    | none => Except.ok (some frame.rows)
    | some existing =>
      let new_rows := frame.rows.filter (isNewRow (existingKeyStrings existing))
      if new_rows.isEmpty then Except.ok (some existing)
      else Except.ok (some (existing ++ new_rows))
  else Except.error "KeyError: cols_to_write missing from odds frame"

/-- The row filter of `remove_expired_events`: keep a row exactly when
its (coerced) `event_commence_utc` is a parseable instant not before
`now` (a NaT comparison is False in pandas). -/
def keepRow (now : Int) (r : OddsRow) : Bool :=
  match r.event_commence_utc with
  | some t => decide (now ≤ t)
  | none => false

/-- The surviving rows of one pruning pass. -/
def pruneRows (now : Int) (rows : List OddsRow) : List OddsRow :=
  rows.filter (keepRow now)

/-- Model of `remove_expired_events`: no-op when the store file does not
exist, otherwise keep exactly the rows whose event has not commenced.
(The code skips the rewrite when nothing was removed; the resulting file
content is the same either way.) -/
def remove_expired_events (now : Int) :
    Option (List OddsRow) → Option (List OddsRow)
  | none => none
  | some rows => some (pruneRows now rows)

/-- The steps of one scheduler cycle, as labels for the execution
order. -/
inductive Step where
  | fetch : Step
  | flatten : Step
  | write_dims : Step
  | prune : Step
  | append_facts : Step
deriving DecidableEq

/-- The on-disk world seen by one cycle: the two dimension files and the
odds fact store (`none` = file absent). -/
structure World where
  events_file : List EventRow
  bookmakers_file : List BookmakerRow
  odds_file : Option (List OddsRow)
deriving DecidableEq

/-- Model of one successful-fetch cycle of `main`: flatten the fetched
data, overwrite the two dimension files, prune expired rows, then append
the fact batch; the second component records the executed steps in
order.  (Fetching itself is modelled by the given `data`.) -/
def runCycle (now : Int) (data : List Event) (w : World) :
    Except String World × List Step :=
  let fr := flatten_odds now data
  let t1 := [Step.fetch, Step.flatten]
  let w1 : World := { w with events_file := fr.events,
                             bookmakers_file := fr.bookmakers }
  let t2 := t1 ++ [Step.write_dims]
  let pruned := remove_expired_events now w1.odds_file
  let t3 := t2 ++ [Step.prune]
  match append_odds_snapshot fr.odds pruned with
  | Except.ok s => (Except.ok { w1 with odds_file := s }, t3 ++ [Step.append_facts])
  | Except.error msg => (Except.error msg, t3 ++ [Step.append_facts])

/-- A sample outcome: the home team of `sampleEvent`. -/
def sampleOutcomeHome : Outcome := { name := some "A", price := some 100, point := none }

/-- A sample outcome: the away team of `sampleEvent`. -/
def sampleOutcomeAway : Outcome := { name := some "B", price := some (-120), point := none }

/-- A sample `h2h` market carrying its own update timestamp. -/
def sampleMarket : Market :=
  { key := "h2h", last_update := some (RawTime.valid 50),
    outcomes := [sampleOutcomeHome, sampleOutcomeAway] }

/-- A sample market with no update timestamp of its own. -/
def sampleMarketNoUpdate : Market :=
  { key := "totals", last_update := none, outcomes := [sampleOutcomeHome] }

/-- A sample bookmaker. -/
def sampleBook : Bookmaker :=
  { key := "bk", title := some "Book", last_update := some (RawTime.valid 40),
    markets := [sampleMarket, sampleMarketNoUpdate] }

/-- A sample bookmaker with no last-update timestamp. -/
def sampleBookNoUpdate : Bookmaker :=
  { key := "bk2", title := none, last_update := none,
    markets := [sampleMarketNoUpdate] }

/-- A sample event with home team `A` and away team `B`. -/
def sampleEvent : Event :=
  { id := "ev1", sport_key := "americanfootball_nfl", sport_title := some "NFL",
    commence_time := some (RawTime.valid 100), home_team := some "A",
    away_team := some "B", bookmakers := [sampleBook, sampleBookNoUpdate] }

/-- A sample fact row (commencing at instant 100). -/
def sampleRow : OddsRow :=
  { event_id := "ev1", bookmaker_key := "bk", market_key := "h2h",
    outcome_name := some "A", is_home_team := some true,
    price_american := some 100, line_point := none,
    event_commence_utc := some 100, market_last_update := some 50,
    snapshot_utc := 0 }

/-- A sample fact row whose event commenced at instant 3. -/
def sampleRowPast : OddsRow :=
  { event_id := "ev0", bookmaker_key := "bk", market_key := "h2h",
    outcome_name := some "B", is_home_team := some false,
    price_american := some (-110), line_point := none,
    event_commence_utc := some 3, market_last_update := some 2,
    snapshot_utc := 0 }

/-- A sample fact row with an unparseable (coerced-to-null) commence
timestamp. -/
def sampleRowNoCommence : OddsRow :=
  { event_id := "ev2", bookmaker_key := "bk", market_key := "h2h",
    outcome_name := some "C", is_home_team := none,
    price_american := some 105, line_point := none,
    event_commence_utc := none, market_last_update := none,
    snapshot_utc := 0 }

/-- A one-row odds frame around `sampleRow`. -/
def sampleFrame : OddsFrame := { columns := odds_columns, rows := [sampleRow] }

/-- A key tuple whose outcome name is the literal string rendered for a
CSV-read missing value. -/
def keyNanSome : KeyTuple := ⟨"e", "b", "m", some "nan", none, none⟩

/-- A key tuple with a genuinely missing outcome name. -/
def keyNullName : KeyTuple := ⟨"e", "b", "m", none, none, none⟩

/-- A key tuple whose outcome name is the literal string rendered for an
in-memory missing value. -/
def keyNoneSome : KeyTuple := ⟨"e", "b", "m", some "None", none, none⟩

/-- A string is pipe-free when it does not contain the `|` separator
used by the key serialization. -/
def pipeFreeStr (s : String) : Bool := !(s.data.contains '|')

/-- A key tuple whose event id contains the separator. -/
def keyPipeLeft : KeyTuple := ⟨"a|b", "c", "m", some "o", none, none⟩

/-- A different key tuple with the same serialized key as
`keyPipeLeft`. -/
def keyPipeRight : KeyTuple := ⟨"a", "b|c", "m", some "o", none, none⟩

/-- A sample pipe-free key tuple. -/
def sampleKey1 : KeyTuple := ⟨"ev1", "bk", "h2h", some "A", none, some 50⟩

/-- Another sample pipe-free key tuple. -/
def sampleKey2 : KeyTuple := ⟨"ev2", "bk", "h2h", some "B", none, none⟩

/-- A world with no files on disk yet. -/
def emptyWorld : World := ⟨[], [], none⟩

/-! ## Helper lemmas -/

/-- C1: the claimed idempotence fails in the code.  A batch holding one
h2h row (`line_point` null) is written to an absent store; re-appending
the very same batch does not no-op: the incoming key renders the null as
`None` while the stored key reads back as `nan`, so the dedup filter
keeps the row and a duplicate is appended.  This contradicts the
append step's own stated purpose of preventing duplicates when the API
returns unchanged odds. -/
theorem c1_idempotence_failure :
    append_odds_snapshot sampleFrame none = Except.ok (some [sampleRow]) ∧
    append_odds_snapshot sampleFrame (some [sampleRow]) =
      Except.ok (some [sampleRow, sampleRow]) ∧
    [sampleRow, sampleRow] ≠ [sampleRow] :=
  ⟨rfl, rfl, by decide⟩

/-! ## C7: all-duplicate batch is claimed to be a no-op -/

/-- C7: the claimed no-op fails in the code.  The store holds exactly
the batch row, so every composite key of the non-empty incoming batch
already exists in the store; yet because the row's `line_point` is null
the incoming key (`None` rendering) misses the stored key (`nan`
rendering) and the call writes a duplicate instead of leaving the file
unchanged. -/
theorem c7_no_write_failure :
    (∀ r ∈ sampleFrame.rows, rowKey r ∈ [sampleRow].map rowKey) ∧
    sampleFrame.rows ≠ [] ∧
    append_odds_snapshot sampleFrame (some [sampleRow]) =
      Except.ok (some [sampleRow, sampleRow]) ∧
    [sampleRow, sampleRow] ≠ [sampleRow] :=
  ⟨by decide, by decide, rfl, by decide⟩

/-! ## C3: pruning correctness -/

/-- C3: for every existing store and pruning instant `now`, after
`remove_expired_events` every surviving row has a (parseable) commence
time at or after `now`, and every row whose commence time was strictly
before `now` is absent from the result. -/
theorem c3_prune_correct (now : Int) (rows pruned : List OddsRow)
    (h : remove_expired_events now (some rows) = some pruned) :
    (∀ r ∈ pruned, ∃ t, r.event_commence_utc = some t ∧ now ≤ t) ∧
    (∀ r, (∃ t, r.event_commence_utc = some t ∧ t < now) → r ∉ pruned) := by
  simp only [remove_expired_events, Option.some.injEq] at h
  subst h
  constructor
  · intro r hr
    obtain ⟨-, hk⟩ := List.mem_filter.mp hr
    cases hcu : r.event_commence_utc with
    | none => rw [keepRow, hcu] at hk; exact absurd hk (by simp)
    | some t =>
      rw [keepRow, hcu] at hk
      exact ⟨t, rfl, by simpa using hk⟩
  · rintro r ⟨t, ht, hlt⟩ hr
    obtain ⟨-, hk⟩ := List.mem_filter.mp hr
    rw [keepRow, ht] at hk
    exact absurd (by simpa using hk) (not_le.mpr hlt)

/-- Witness for C3: a row commencing at instant 3 is pruned at instant
5, and every survivor commences no earlier than 5. -/
theorem c3_prune_correct_witness :
    sampleRowPast ∉ pruneRows 5 [sampleRow, sampleRowPast] :=
  (c3_prune_correct 5 [sampleRow, sampleRowPast]
      (pruneRows 5 [sampleRow, sampleRowPast]) rfl).2
    sampleRowPast ⟨3, rfl, by decide⟩

/-! ## C10: pruning also removes rows with null commence time -/

/-- C10: `remove_expired_events` removes every row whose
`event_commence_utc` is missing or was coerced to null, so no surviving
row of a pruning pass has a null commence time. -/
theorem c10_prune_removes_null_commence (now : Int) (rows pruned : List OddsRow)
    (h : remove_expired_events now (some rows) = some pruned) :
    (∀ r ∈ rows, r.event_commence_utc = none → r ∉ pruned) ∧
    (∀ r ∈ pruned, r.event_commence_utc ≠ none) := by
  simp only [remove_expired_events, Option.some.injEq] at h
  subst h
  constructor
  · intro r _ hnull hr
    obtain ⟨-, hk⟩ := List.mem_filter.mp hr
    rw [keepRow, hnull] at hk
    exact absurd hk (by simp)
  · intro r hr hnull
    obtain ⟨-, hk⟩ := List.mem_filter.mp hr
    rw [keepRow, hnull] at hk
    exact absurd hk (by simp)

/-- Witness for C10: a row with a null commence time is pruned. -/
theorem c10_prune_removes_null_commence_witness :
    sampleRowNoCommence ∉ pruneRows 5 [sampleRow, sampleRowNoCommence] :=
  (c10_prune_removes_null_commence 5 [sampleRow, sampleRowNoCommence]
      (pruneRows 5 [sampleRow, sampleRowNoCommence]) rfl).1
    sampleRowNoCommence (by decide) rfl

/-! ## C2: key uniqueness across reachable states -/

theorem mkOddsRow_mem_flatten (now : Int) (json : List Event)
    (e : Event) (b : Bookmaker) (m : Market) (o : Outcome)
    (he : e ∈ json) (hb : b ∈ e.bookmakers) (hm : m ∈ b.markets)
    (ho : o ∈ m.outcomes) :
    mkOddsRow now e b m o ∈ (flatten_odds now json).odds.rows := by
  show mkOddsRow now e b m o ∈ flattenRows now json
  exact List.mem_flatMap.mpr ⟨e, he, List.mem_flatMap.mpr ⟨b, hb,
    List.mem_flatMap.mpr ⟨m, hm, List.mem_map_of_mem _ ho⟩⟩⟩

/-! ## C5: home/away derivation -/

/-- C5: for an event whose recorded home team is `A` and away team is
`B` (distinct, non-empty names), `flatten_odds` emits the outcome's fact
row with `is_home_team = some true` when the outcome is named `A`,
`some false` when it is named `B`, and `none` for any other name. -/
theorem c5_home_away_derivation (now : Int) (json : List Event)
    (e : Event) (b : Bookmaker) (m : Market) (o : Outcome) (A B : String)
    (he : e ∈ json) (hb : b ∈ e.bookmakers) (hm : m ∈ b.markets)
    (ho : o ∈ m.outcomes)
    (hH : e.home_team = some A) (hA : e.away_team = some B)
    (hA0 : A ≠ "") (hB0 : B ≠ "") (hAB : A ≠ B) :
    mkOddsRow now e b m o ∈ (flatten_odds now json).odds.rows ∧
    (o.name = some A → (mkOddsRow now e b m o).is_home_team = some true) ∧
    (o.name = some B → (mkOddsRow now e b m o).is_home_team = some false) ∧
    (∀ C, o.name = some C → C ≠ A → C ≠ B →
      (mkOddsRow now e b m o).is_home_team = none) := by
  refine ⟨mkOddsRow_mem_flatten now json e b m o he hb hm ho, ?_, ?_, ?_⟩
  · intro hn
    simp [mkOddsRow, derive_is_home, truthyStr, hn, hH, hA, hA0]
  · intro hn
    simp [mkOddsRow, derive_is_home, truthyStr, hn, hH, hA, hA0, hB0,
      Ne.symm hAB]
  · intro C hn hCA hCB
    by_cases hC0 : C = ""
    · simp [mkOddsRow, derive_is_home, truthyStr, hn, hC0]
    · simp [mkOddsRow, derive_is_home, truthyStr, hn, hH, hA, hA0, hC0,
        hCA, hCB]

/-- Witness for C5: the sample event's home outcome flattens with
`is_home_team = some true`. -/
theorem c5_home_away_derivation_witness :
    (mkOddsRow 0 sampleEvent sampleBook sampleMarket sampleOutcomeHome).is_home_team
      = some true :=
  (c5_home_away_derivation 0 [sampleEvent] sampleEvent sampleBook sampleMarket
      sampleOutcomeHome "A" "B" (by decide) (by decide) (by decide) (by decide)
      rfl rfl (by decide) (by decide) (by decide)).2.1 rfl

/-! ## C6: market_last_update fallback and null keys -/

/-- C6: the `market_last_update` of an emitted fact row is the market's
own update timestamp when the market carries one, else the enclosing
bookmaker's last-update timestamp, and null when neither is present;
moreover a row whose `market_last_update` is null is accepted by the
dedup layer (here: written as part of an initial store) rather than
rejected. -/
theorem c6_market_last_update_fallback (now : Int) (json : List Event)
    (e : Event) (b : Bookmaker) (m : Market) (o : Outcome)
    (he : e ∈ json) (hb : b ∈ e.bookmakers) (hm : m ∈ b.markets)
    (ho : o ∈ m.outcomes) :
    mkOddsRow now e b m o ∈ (flatten_odds now json).odds.rows ∧
    (∀ rt, m.last_update = some rt →
      (mkOddsRow now e b m o).market_last_update = parseTime rt) ∧
    (m.last_update = none → ∀ rt, b.last_update = some rt →
      (mkOddsRow now e b m o).market_last_update = parseTime rt) ∧
    (m.last_update = none → b.last_update = none →
      (mkOddsRow now e b m o).market_last_update = none) ∧
    ((mkOddsRow now e b m o).market_last_update = none →
      append_odds_snapshot ⟨odds_columns, [mkOddsRow now e b m o]⟩ none =
        Except.ok (some [mkOddsRow now e b m o])) := by
  refine ⟨mkOddsRow_mem_flatten now json e b m o he hb hm ho, ?_, ?_, ?_, ?_⟩
  · intro rt hrt
    simp [mkOddsRow, hrt]
  · intro hm0 rt hrt
    simp [mkOddsRow, hm0, hrt]
  · intro hm0 hb0
    simp [mkOddsRow, hm0, hb0]
  · intro _
    have hc : checkCols ⟨odds_columns, [mkOddsRow now e b m o]⟩ = true := rfl
    simp [append_odds_snapshot, hc]

/-- Witness for C6: a market without its own timestamp inherits the
bookmaker's, and the null-timestamp acceptance branch is exercised. -/
theorem c6_market_last_update_fallback_witness :
    (mkOddsRow 0 sampleEvent sampleBook sampleMarketNoUpdate sampleOutcomeHome).market_last_update
      = parseTime (RawTime.valid 40) ∧
    append_odds_snapshot
        ⟨odds_columns, [mkOddsRow 0 sampleEvent sampleBookNoUpdate sampleMarketNoUpdate sampleOutcomeHome]⟩
        none =
      Except.ok (some [mkOddsRow 0 sampleEvent sampleBookNoUpdate sampleMarketNoUpdate sampleOutcomeHome]) :=
  ⟨(c6_market_last_update_fallback 0 [sampleEvent] sampleEvent sampleBook
      sampleMarketNoUpdate sampleOutcomeHome (by decide) (by decide) (by decide)
      (by decide)).2.2.1 rfl (RawTime.valid 40) rfl,
   (c6_market_last_update_fallback 0 [sampleEvent] sampleEvent sampleBookNoUpdate
      sampleMarketNoUpdate sampleOutcomeHome (by decide) (by decide) (by decide)
      (by decide)).2.2.2.2 rfl⟩

/-! ## Helpers for the key-serialization analysis (C4) -/

theorem pipe_notin_of_pipeFree {s : String} (h : pipeFreeStr s = true) :
    '|' ∉ s.data := by
  simpa [pipeFreeStr] using h

theorem append_sep_inj (sep : Char) :
    ∀ (a₁ r₁ a₂ r₂ : List Char), sep ∉ a₁ → sep ∉ a₂ →
      a₁ ++ sep :: r₁ = a₂ ++ sep :: r₂ → a₁ = a₂ ∧ r₁ = r₂ := by
  intro a₁
  induction a₁ with
  | nil =>
    intro r₁ a₂ r₂ h₁ h₂ h
    cases a₂ with
    | nil =>
      simp only [List.nil_append, List.cons.injEq] at h
      exact ⟨rfl, h.2⟩
    | cons c cs =>
      simp only [List.nil_append, List.cons_append, List.cons.injEq] at h
      exact absurd (h.1 ▸ List.mem_cons_self c cs) h₂
  | cons c cs ih =>
    intro r₁ a₂ r₂ h₁ h₂ h
    cases a₂ with
    | nil =>
      simp only [List.cons_append, List.nil_append, List.cons.injEq] at h
      exact absurd (h.1 ▸ List.mem_cons_self c cs) h₁
    | cons d ds =>
      simp only [List.cons_append, List.cons.injEq] at h
      obtain ⟨hcd, hrest⟩ := h
      obtain ⟨hl, hr⟩ := ih r₁ ds r₂
        (fun hm => h₁ (List.mem_cons_of_mem _ hm))
        (fun hm => h₂ (List.mem_cons_of_mem _ hm)) hrest
      exact ⟨by rw [hcd, hl], hr⟩

theorem data_join_cons (s t : String) :
    (s ++ "|" ++ t).data = s.data ++ '|' :: t.data := by
  simp

theorem joinPipe_inj :
    ∀ (l₁ l₂ : List String), l₁.length = l₂.length →
      (∀ s ∈ l₁, pipeFreeStr s = true) → (∀ s ∈ l₂, pipeFreeStr s = true) →
      joinPipe l₁ = joinPipe l₂ → l₁ = l₂ := by
  intro l₁
  induction l₁ with
  | nil =>
    intro l₂ hlen _ _ _
    cases l₂ with
    | nil => rfl
    | cons b bs => simp at hlen
  | cons a as ih =>
    intro l₂ hlen h₁ h₂ hj
    cases l₂ with
    | nil => simp at hlen
    | cons b bs =>
      cases as with
      | nil =>
        cases bs with
        | nil =>
          have : a = b := hj
          rw [this]
        | cons b2 bs2 => simp at hlen
      | cons a2 as2 =>
        cases bs with
        | nil => simp at hlen
        | cons b2 bs2 =>
          have hja : joinPipe (a :: a2 :: as2) = a ++ "|" ++ joinPipe (a2 :: as2) := rfl
          have hjb : joinPipe (b :: b2 :: bs2) = b ++ "|" ++ joinPipe (b2 :: bs2) := rfl
          rw [hja, hjb] at hj
          have hd := congrArg String.data hj
          rw [data_join_cons, data_join_cons] at hd
          obtain ⟨hab, hrest⟩ := append_sep_inj '|' a.data _ b.data _
            (pipe_notin_of_pipeFree (h₁ a (List.mem_cons_self a _)))
            (pipe_notin_of_pipeFree (h₂ b (List.mem_cons_self b _))) hd
          have htail := ih (b2 :: bs2) (by simpa using hlen)
            (fun s hs => h₁ s (List.mem_cons_of_mem _ hs))
            (fun s hs => h₂ s (List.mem_cons_of_mem _ hs))
            (String.ext hrest)
          rw [String.ext hab, htail]

theorem natVal_append (l : List Char) (c : Char) :
    natVal (l ++ [c]) = 10 * natVal l + (c.toNat - 48) := by
  simp [natVal, List.foldl_append]

theorem digitChar_toNat {d : Nat} (h : d < 10) :
    (digitChar d).toNat = 48 + d := by
  interval_cases d <;> decide

theorem natVal_natStrAux :
    ∀ (fuel n : Nat), n < fuel → natVal (natStrAux fuel n) = n := by
  intro fuel
  induction fuel with
  | zero => intro n h; omega
  | succ f ih =>
    intro n h
    simp only [natStrAux]
    split
    · next h10 =>
      simp only [natVal, List.foldl]
      rw [digitChar_toNat h10]
      omega
    · next h10 =>
      have hdiv : n / 10 < n := Nat.div_lt_self (by omega) (by omega)
      rw [natVal_append, ih (n / 10) (by omega),
        digitChar_toNat (Nat.mod_lt n (by omega))]
      omega

theorem natVal_natStr (n : Nat) : natVal (natStr n).data = n :=
  natVal_natStrAux (n + 1) n (by omega)

theorem natStr_inj {a b : Nat} (h : natStr a = natStr b) : a = b := by
  have h2 := congrArg (fun s => natVal s.data) h
  simpa [natVal_natStr] using h2

theorem natStrAux_chars :
    ∀ (fuel n : Nat), ∀ c ∈ natStrAux fuel n,
      48 ≤ c.toNat ∧ c.toNat ≤ 57 := by
  intro fuel
  induction fuel with
  | zero => intro n c hc; simp [natStrAux] at hc
  | succ f ih =>
    intro n c hc
    simp only [natStrAux] at hc
    split at hc
    · next h10 =>
      simp only [List.mem_singleton] at hc
      subst hc
      rw [digitChar_toNat h10]
      omega
    · next h10 =>
      rcases List.mem_append.mp hc with h1 | h2
      · exact ih _ c h1
      · simp only [List.mem_singleton] at h2
        subst h2
        rw [digitChar_toNat (Nat.mod_lt n (by omega))]
        omega

theorem natStr_chars (n : Nat) :
    ∀ c ∈ (natStr n).data, 48 ≤ c.toNat ∧ c.toNat ≤ 57 :=
  natStrAux_chars (n + 1) n

theorem intStr_chars (z : Int) :
    ∀ c ∈ (intStr z).data, c.toNat = 45 ∨ (48 ≤ c.toNat ∧ c.toNat ≤ 57) := by
  cases z with
  | ofNat m => intro c hc; exact Or.inr (natStr_chars m c hc)
  | negSucc m =>
    intro c hc
    have hdash : ("-" : String).data = ['-'] := rfl
    simp only [intStr, String.data_append, hdash] at hc
    rcases List.mem_append.mp hc with h1 | h2
    · left
      simp only [List.mem_singleton] at h1
      subst h1
      rfl
    · exact Or.inr (natStr_chars _ c h2)

theorem intStr_inj {a b : Int} (h : intStr a = intStr b) : a = b := by
  have hdash : ("-" : String).data = ['-'] := rfl
  cases a with
  | ofNat ma =>
    cases b with
    | ofNat mb => exact congrArg Int.ofNat (natStr_inj h)
    | negSucc mb =>
      exfalso
      have hd := congrArg String.data h
      simp only [intStr, String.data_append, hdash, List.singleton_append] at hd
      have hmem : '-' ∈ (natStr ma).data := by
        rw [hd]
        exact List.mem_cons_self _ _
      have hr := natStr_chars ma '-' hmem
      have h45 : ('-').toNat = 45 := rfl
      omega
  | negSucc ma =>
    cases b with
    | ofNat mb =>
      exfalso
      have hd := congrArg String.data h
      simp only [intStr, String.data_append, hdash, List.singleton_append] at hd
      have hmem : '-' ∈ (natStr mb).data := by
        rw [← hd]
        exact List.mem_cons_self _ _
      have hr := natStr_chars mb '-' hmem
      have h45 : ('-').toNat = 45 := rfl
      omega
    | negSucc mb =>
      have hd := congrArg String.data h
      simp only [intStr, String.data_append, hdash, List.singleton_append,
        List.cons.injEq, true_and] at hd
      have hnat := natStr_inj (String.ext hd)
      have hm : ma = mb := by omega
      rw [hm]

theorem intStr_ne_NaT (z : Int) : intStr z ≠ "NaT" := by
  intro h
  have hN : 'N' ∈ (intStr z).data := by
    rw [h]
    decide
  have hr := intStr_chars z 'N' hN
  have h78 : ('N').toNat = 78 := rfl
  omega

theorem data_ratStr (q : ℚ) :
    (ratStr q).data = (intStr q.num).data ++ '/' :: (natStr q.den).data := by
  have hslash : ("/" : String).data = ['/'] := rfl
  simp [ratStr, hslash]

theorem slash_mem_ratStr (q : ℚ) : '/' ∈ (ratStr q).data := by
  rw [data_ratStr]
  exact List.mem_append.mpr (Or.inr (List.mem_cons_self _ _))

theorem ratStr_ne_of_no_slash (q : ℚ) {s : String} (hs : '/' ∉ s.data) :
    ratStr q ≠ s := by
  intro h
  exact hs (h ▸ slash_mem_ratStr q)

theorem slash_notin_intStr (z : Int) : '/' ∉ (intStr z).data := by
  intro hm
  have h47 : ('/').toNat = 47 := rfl
  rcases intStr_chars z '/' hm with h45 | ⟨hlo, hhi⟩ <;> omega

theorem ratStr_inj {p q : ℚ} (h : ratStr p = ratStr q) : p = q := by
  have hd := congrArg String.data h
  rw [data_ratStr, data_ratStr] at hd
  obtain ⟨h1, h2⟩ := append_sep_inj '/' _ _ _ _
    (slash_notin_intStr p.num) (slash_notin_intStr q.num) hd
  exact Rat.ext (intStr_inj (String.ext h1)) (natStr_inj (String.ext h2))

theorem strOfOptStrWith_inj {ns : String} {o₁ o₂ : Option String}
    (h₁ : o₁ ≠ some ns) (h₂ : o₂ ≠ some ns)
    (h : strOfOptStrWith ns o₁ = strOfOptStrWith ns o₂) : o₁ = o₂ := by
  cases o₁ with
  | none =>
    cases o₂ with
    | none => rfl
    | some s => exact absurd (congrArg some (h : ns = s).symm) h₂
  | some s =>
    cases o₂ with
    | none => exact absurd (congrArg some (h : s = ns)) h₁
    | some t => exact congrArg some h

theorem strOfOptRatWith_inj {ns : String} (hns : '/' ∉ ns.data)
    {l₁ l₂ : Option ℚ}
    (h : strOfOptRatWith ns l₁ = strOfOptRatWith ns l₂) : l₁ = l₂ := by
  cases l₁ with
  | none =>
    cases l₂ with
    | none => rfl
    | some q => exact absurd (h : ns = ratStr q).symm (ratStr_ne_of_no_slash q hns)
  | some q =>
    cases l₂ with
    | none => exact absurd (h : ratStr q = ns) (ratStr_ne_of_no_slash q hns)
    | some p => exact congrArg some (ratStr_inj h)

theorem strOfOptTime_inj {t₁ t₂ : Option Int}
    (h : strOfOptTime t₁ = strOfOptTime t₂) : t₁ = t₂ := by
  cases t₁ with
  | none =>
    cases t₂ with
    | none => rfl
    | some z => exact absurd (h : ("NaT" : String) = intStr z).symm (intStr_ne_NaT z)
  | some z =>
    cases t₂ with
    | none => exact absurd (h : intStr z = "NaT") (intStr_ne_NaT z)
    | some w => exact congrArg some (intStr_inj h)

theorem keyFieldsWith_inj {ns : String} (hns : '/' ∉ ns.data)
    {k₁ k₂ : KeyTuple}
    (h₁ : k₁.outcome_name ≠ some ns) (h₂ : k₂.outcome_name ≠ some ns)
    (h : keyFieldsWith ns k₁ = keyFieldsWith ns k₂) : k₁ = k₂ := by
  obtain ⟨e₁, b₁, m₁, o₁, l₁, t₁⟩ := k₁
  obtain ⟨e₂, b₂, m₂, o₂, l₂, t₂⟩ := k₂
  simp only [keyFieldsWith, List.cons.injEq, and_true] at h
  obtain ⟨he, hb, hm, ho, hl, ht⟩ := h
  simp only [KeyTuple.mk.injEq]
  exact ⟨he, hb, hm, strOfOptStrWith_inj h₁ h₂ ho,
    strOfOptRatWith_inj hns hl, strOfOptTime_inj ht⟩

theorem keyFieldsWith_pipeFree {ns₁ ns₂ : String} {k : KeyTuple}
    (hns : pipeFreeStr ns₂ = true)
    (h : ∀ s ∈ keyFieldsWith ns₁ k, pipeFreeStr s = true) :
    ∀ s ∈ keyFieldsWith ns₂ k, pipeFreeStr s = true := by
  have he := h k.event_id (by simp [keyFieldsWith])
  have hbk := h k.bookmaker_key (by simp [keyFieldsWith])
  have hmk := h k.market_key (by simp [keyFieldsWith])
  have ho := h (strOfOptStrWith ns₁ k.outcome_name) (by simp [keyFieldsWith])
  have hl := h (strOfOptRatWith ns₁ k.line_point) (by simp [keyFieldsWith])
  have ht := h (strOfOptTime k.market_last_update) (by simp [keyFieldsWith])
  intro s hs
  simp only [keyFieldsWith, List.mem_cons, List.not_mem_nil, or_false] at hs
  rcases hs with rfl | rfl | rfl | rfl | rfl | rfl
  · exact he
  · exact hbk
  · exact hmk
  · cases hon : k.outcome_name with
    | none => exact hns
    | some s' => rw [hon] at ho; exact ho
  · cases hlp : k.line_point with
    | none => exact hns
    | some q => rw [hlp] at hl; exact hl
  · exact ht

/-! ## C4: composite-key serialization -/

/-- C4 counterexample: three pairs of field-by-field different key
tuples whose serialized composite keys coincide, one per flaw of the
serialization.  First, a key field containing the `|` separator makes
the join ambiguous.  Second, on the CSV-read side a missing value and
the literal string `nan` stringify identically.  Third, on the
in-memory side a missing value and the literal string `None` stringify
identically. -/
theorem c4_counterexample :
    (serializeKeyDisk keyPipeLeft = serializeKeyDisk keyPipeRight ∧
      keyPipeLeft ≠ keyPipeRight) ∧
    (serializeKeyDisk keyNanSome = serializeKeyDisk keyNullName ∧
      keyNanSome ≠ keyNullName) ∧
    (serializeKeyMem keyNoneSome = serializeKeyMem keyNullName ∧
      keyNoneSome ≠ keyNullName) :=
  ⟨⟨rfl, by decide⟩, ⟨rfl, by decide⟩, ⟨rfl, by decide⟩⟩

/-- C4 amended: for all pairs of key tuples whose six stringified key
fields contain no `|` separator and whose outcome name is neither the
literal `nan` (the CSV-read rendering of a missing value) nor the
literal `None` (the in-memory rendering), each of the two serializations
used by `append_odds_snapshot` — the one applied to the CSV-read store
rows and the one applied to the in-memory batch — maps the two tuples to
the same serialized key if and only if they are equal field-by-field. -/
theorem c4_key_serialization_amended (k₁ k₂ : KeyTuple)
    (hp₁ : ∀ s ∈ diskKeyFields k₁, pipeFreeStr s = true)
    (hp₂ : ∀ s ∈ diskKeyFields k₂, pipeFreeStr s = true)
    (hnan₁ : k₁.outcome_name ≠ some "nan")
    (hnan₂ : k₂.outcome_name ≠ some "nan")
    (hnone₁ : k₁.outcome_name ≠ some "None")
    (hnone₂ : k₂.outcome_name ≠ some "None") :
    (serializeKeyDisk k₁ = serializeKeyDisk k₂ ↔ k₁ = k₂) ∧
    (serializeKeyMem k₁ = serializeKeyMem k₂ ↔ k₁ = k₂) := by
  have hm₁ : ∀ s ∈ memKeyFields k₁, pipeFreeStr s = true :=
    keyFieldsWith_pipeFree (by decide) hp₁
  have hm₂ : ∀ s ∈ memKeyFields k₂, pipeFreeStr s = true :=
    keyFieldsWith_pipeFree (by decide) hp₂
  constructor
  · constructor
    · intro h
      have hf := joinPipe_inj (diskKeyFields k₁) (diskKeyFields k₂) rfl hp₁ hp₂ h
      exact keyFieldsWith_inj (by decide) hnan₁ hnan₂ hf
    · intro h
      rw [h]
  · constructor
    · intro h
      have hf := joinPipe_inj (memKeyFields k₁) (memKeyFields k₂) rfl hm₁ hm₂ h
      exact keyFieldsWith_inj (by decide) hnone₁ hnone₂ hf
    · intro h
      rw [h]

/-- Witness for the amended C4 at two concrete well-behaved key
tuples. -/
theorem c4_key_serialization_amended_witness :
    (serializeKeyDisk sampleKey1 = serializeKeyDisk sampleKey2 ↔
      sampleKey1 = sampleKey2) ∧
    (serializeKeyMem sampleKey1 = serializeKeyMem sampleKey2 ↔
      sampleKey1 = sampleKey2) :=
  c4_key_serialization_amended sampleKey1 sampleKey2 (by decide) (by decide)
    (by decide) (by decide) (by decide) (by decide)

/-! ## C8: the order of the steps of one scheduler cycle -/

/-- C8 counterexample: at a concrete cycle the executed step order is
not fetch, flatten, prune, write-dimensions, append: the dimension files
are written before the pruning pass, not after it. -/
theorem c8_counterexample :
    (runCycle 0 [sampleEvent] emptyWorld).2 ≠
      [Step.fetch, Step.flatten, Step.prune, Step.write_dims, Step.append_facts] := by
  decide

/-- C8 amended: every scheduler cycle executes its steps in the order
fetch, then flatten, then write the dimension files, then prune-expired,
then append fact rows (pruning still precedes the fact append). -/
theorem c8_cycle_order_amended (now : Int) (data : List Event) (w : World) :
    (runCycle now data w).2 =
      [Step.fetch, Step.flatten, Step.write_dims, Step.prune, Step.append_facts] := by
  simp only [runCycle]
  split <;> rfl

/-- Witness for the amended C8 at a concrete cycle. -/
theorem c8_cycle_order_amended_witness :
    (runCycle 0 [sampleEvent] emptyWorld).2 =
      [Step.fetch, Step.flatten, Step.write_dims, Step.prune, Step.append_facts] :=
  c8_cycle_order_amended 0 [sampleEvent] emptyWorld

/-! ## C9: empty fetched event list -/

/-- C9: flattening an empty fetched event list yields an odds frame with
no rows and no columns, and `append_odds_snapshot` on that frame fails
at the output-column selection (a KeyError) for every store state — it
neither no-ops nor writes an empty initial store. -/
theorem c9_empty_fetch_append_error (now : Int) :
    (flatten_odds now []).odds.columns = [] ∧
    (flatten_odds now []).odds.rows = [] ∧
    ∀ store, append_odds_snapshot (flatten_odds now []).odds store =
      Except.error "KeyError: cols_to_write missing from odds frame" := by
  refine ⟨rfl, rfl, fun store => ?_⟩
  have hc : checkCols (flatten_odds now []).odds = false := rfl
  simp [append_odds_snapshot, hc]

/-- Witness for C9 at a concrete pruning instant and an absent store. -/
theorem c9_empty_fetch_append_error_witness :
    append_odds_snapshot (flatten_odds 0 []).odds none =
      Except.error "KeyError: cols_to_write missing from odds frame" :=
  (c9_empty_fetch_append_error 0).2.2 none

end Ingest
